import Mathlib

/-!
Verification development for the Convoso Insight Lens content script
(`src/components/chrome/chrome-api-bridge/content.js`).

The script's core logic is embedded shallowly:

* a table is a list of header cell texts plus a list of body rows, each a
  list of cell texts (the `Table Snapshot` of the spec's data model);
* JS numbers arising from `parseFloat` of report cells are modelled as
  rationals (the guarded percentage formulas never divide by a
  non-positive denominator, so no non-finite value can arise);
* DOM mutation (inserting a `th`/`td` right after an anchor cell that is
  identified by its position in the pre-insertion cell array) is modelled
  by tagging every original cell with its original index and inserting new
  untagged cells after the anchor tag.

Presentation-only data (CSS classes, inline styles, colors, tooltip
titles) is not modelled.
-/

-- =========================================================================
-- JS string primitives: `String.prototype.includes`, lower-casing, trimming
-- =========================================================================

/-- `strStartsWith needle hay` : `needle` is a prefix of `hay` (char lists). -/
def strStartsWith : List Char → List Char → Bool
  | [], _ => true
  | _ :: _, [] => false
  | a :: as, b :: bs => a == b && strStartsWith as bs

/-- `strHasSub needle hay` : `needle` occurs contiguously inside `hay`. -/
def strHasSub : List Char → List Char → Bool
  | n, [] => n.isEmpty
  | n, c :: rest => strStartsWith n (c :: rest) || strHasSub n rest

/-- JS `s.includes(sub)`. -/
def jsIncludes (s sub : String) : Bool := strHasSub sub.toList s.toList

/-- The ASCII whitespace removed by JS `trim` (report cell text contains
no exotic Unicode whitespace). -/
def wsChar (c : Char) : Bool :=
  c == ' ' || c == '\t' || c == '\n' || c == '\r'

/-- Strip whitespace from both ends of a char list. -/
def trimChars (cs : List Char) : List Char :=
  ((cs.dropWhile wsChar).reverse.dropWhile wsChar).reverse

/-- JS `s.trim()`. -/
def jsTrim (s : String) : String := ⟨trimChars s.toList⟩

/-- JS `s.toLowerCase()` (ASCII; header texts are ASCII). -/
def jsToLower (s : String) : String := ⟨s.toList.map Char.toLower⟩

-- =========================================================================
-- Numeric Parser (`parseNum`, content.js lines 98-103) and `toFixed`
-- =========================================================================

/-- Value of a digit string, most significant first. -/
def digitsVal (ds : List Char) : Nat :=
  ds.foldl (fun a c => a * 10 + (c.toNat - '0'.toNat)) 0

/-- Model of JS `parseFloat` on the decimal-literal fragment it accepts:
an optional sign, digits with an optional fractional part (at least one
digit overall), and an optional exponent; the longest valid prefix is
parsed and trailing junk is ignored; no valid prefix gives `none` (NaN).
The special literal `Infinity` is not modelled (no report cell text takes
that shape). -/
def jsParseFloat (s : String) : Option ℚ :=
  let cs := s.toList
  let sgn : ℚ := match cs with
    | '-' :: _ => -1
    | _ => 1
  let cs1 : List Char := match cs with
    | '+' :: r => r
    | '-' :: r => r
    | _ => cs
  let ds := cs1.takeWhile Char.isDigit
  let cs2 := cs1.dropWhile Char.isDigit
  let fs : List Char := match cs2 with
    | '.' :: r => r.takeWhile Char.isDigit
    | _ => []
  let cs3 : List Char := match cs2 with
    | '.' :: r => r.dropWhile Char.isDigit
    | _ => cs2
  if ds.isEmpty && fs.isEmpty then none
  else
    let mant : ℚ := sgn * ((digitsVal ds : ℚ) + (digitsVal fs : ℚ) / (10 : ℚ) ^ fs.length)
    let ex : ℚ := match cs3 with
      | e :: r =>
        if e == 'e' || e == 'E' then
          let pos : Bool := match r with
            | '-' :: _ => false
            | _ => true
          let r2 : List Char := match r with
            | '+' :: rr => rr
            | '-' :: rr => rr
            | _ => r
          let eds := r2.takeWhile Char.isDigit
          if eds.isEmpty then 1
          else if pos then (10 : ℚ) ^ digitsVal eds else 1 / (10 : ℚ) ^ digitsVal eds
        else 1
      | [] => 1
    some (mant * ex)

/-- A JS value as it may reach `parseNum` (cell text, or `undefined` from
an out-of-range indexing, or any other non-string value). -/
inductive JSVal where
  | jsUndefined
  | nullv
  | num (q : ℚ)
  | boolv (b : Bool)
  | str (s : String)
deriving Repr, DecidableEq

/-- `str.replace(/[%$,]/g, '')`. -/
def stripPctDollarComma (s : String) : String :=
  ⟨s.toList.filter (fun c => !(c == '%' || c == '$' || c == ','))⟩

/-- content.js `parseNum`: `0` for a falsy or non-string argument
(the only falsy string is `""`), otherwise strip `%`, `$`, `,`, trim,
`parseFloat`, and map NaN to `0`. -/
def parseNum (v : JSVal) : ℚ :=
  match v with
  | .str s =>
    if s = "" then 0
    else
      match jsParseFloat (jsTrim (stripPctDollarComma s)) with
      | some q => q
      | none => 0
  | _ => 0

/-- `parseNum(cells[i]?.innerText)`: a missing cell short-circuits the
optional chain to `undefined`. -/
def parseNumCell (o : Option String) : ℚ :=
  match o with
  | some s => parseNum (.str s)
  | none => parseNum .jsUndefined

/-- Numeric value denoted by JS `x.toFixed(k)`: the multiple of `10^(-k)`
nearest to `x`, ties resolved to the larger value (ES `toFixed` picks the
larger `n` on ties). -/
def toFixedVal (k : Nat) (q : ℚ) : ℚ :=
  ((⌊q * (10 : ℚ) ^ k + 1 / 2⌋ : ℤ) : ℚ) / (10 : ℚ) ^ k

/-- Render a natural below 100 with two digits. -/
def twoDigitStr (r : Nat) : String :=
  (if r < 10 then "0" else "") ++ toString r

/-- Decimal string of `q.toFixed(2)`. -/
def toFixed2Str (q : ℚ) : String :=
  let n : Int := ⌊q * 100 + 1 / 2⌋
  (if n < 0 then "-" else "") ++ toString (n.natAbs / 100) ++ "." ++ twoDigitStr (n.natAbs % 100)

/-- content.js `formatPct` (lines 108-111): `num.toFixed(2) + '%'`. The
source's dash branch for non-finite numbers is unreachable in the rational
model and is not represented. -/
def formatPct (q : ℚ) : String := toFixed2Str q ++ "%"

-- =========================================================================
-- Header Matcher (`findColumnIndex`, content.js lines 125-135)
-- =========================================================================

/-- One header matches if its lowercase, trimmed text contains any of the
lowercased search terms (the source's inner `for (const term of ...)`). -/
def headerMatches (searchTerms : List String) (h : String) : Bool :=
  searchTerms.any (fun t => jsIncludes (jsTrim (jsToLower h)) (jsToLower t))

/-- Outer loop of `findColumnIndex`: scan headers in document order from
index `i`; return the first matching index, else `-1`. -/
def findColumnIndexAux (searchTerms : List String) : List String → Nat → Int
  | [], _ => -1
  | h :: rest, i =>
    if headerMatches searchTerms h then (i : Int)
    else findColumnIndexAux searchTerms rest (i + 1)

/-- content.js `findColumnIndex`. -/
def findColumnIndex (headers searchTerms : List String) : Int :=
  findColumnIndexAux searchTerms headers 0

/-- Helper for the claimed candidate-major semantics: first header whose
lowercase trimmed text contains the one term `t`. -/
def findHeaderForTerm (t : String) : List String → Nat → Int
  | [], _ => -1
  | h :: rest, i =>
    if jsIncludes (jsTrim (jsToLower h)) (jsToLower t) then (i : Int)
    else findHeaderForTerm t rest (i + 1)

/-- Modelled from the spec's words for claim C4 only (candidate-major
priority): each candidate term is tested across all headers before
falling through to the next candidate term. The source's
`findColumnIndex` instead scans header-major. -/
def findColumnIndexClaimed (headers : List String) : List String → Int
  | [] => -1
  | t :: ts =>
    let r := findHeaderForTerm t headers 0
    if r != -1 then r else findColumnIndexClaimed headers ts

-- =========================================================================
-- Table snapshots, configuration, Column Injector (`processTable`)
-- =========================================================================

/-- Snapshot of one rendered table that has a `thead tr`: header cell
texts and body rows of cell texts (tables without a header row are
filtered out by the callers before `processTable`/extraction run). -/
structure Table where
  headers : List String
  rows : List (List String)
deriving Repr, DecidableEq

/-- `INSIGHT_CONFIG.lensedColumns`: per-derived-column enabled flags. -/
structure LensedConfig where
  apptContacts : Bool := true
  apptCalls : Bool := true
  lxferContacts : Bool := true
  lxferCalls : Bool := true
  successContacts : Bool := true
  successCalls : Bool := true
deriving Repr, DecidableEq

/-- The built-in default configuration (all six columns enabled). -/
def defaultLensed : LensedConfig := {}

/-- `INSIGHT_CONFIG.columns.contacts`. -/
def colContacts : List String := ["contacts", "contact"]

/-- `INSIGHT_CONFIG.columns.appt`. -/
def colAppt : List String :=
  ["appt", "status \x27appt", "status \x27appt - appointment scheduled\x27", "appointment"]

/-- `INSIGHT_CONFIG.columns.lxfer`. -/
def colLxfer : List String :=
  ["lxfer", "status \x27lxfer", "status \x27lxfer - live transfer\x27", "live transfer"]

/-- `INSIGHT_CONFIG.columns.success`. -/
def colSuccess : List String := ["success", "all success", "total success"]

/-- `INSIGHT_CONFIG.columns.dialed`. -/
def colDialed : List String := ["dialed"]

/-- One insertion request built by `processTable` (lines 175-283).
`numIdx`/`denIdx` are the resolved column indices captured by the
`calculate` closure; presentation fields (title, css class, metric type)
are omitted. -/
structure Insertion where
  afterIdx : Nat
  headerText : String
  numIdx : Nat
  denIdx : Nat
deriving Repr, DecidableEq

/-- The `calculate` closure shared by all six insertions:
`den > 0 ? (num / den) * 100 : 0` on the row's original cell array. -/
def calcValue (ins : Insertion) (cells : List String) : ℚ :=
  let den := parseNumCell (cells.get? ins.denIdx)
  let num := parseNumCell (cells.get? ins.numIdx)
  if den > 0 then num / den * 100 else 0

/-- Build the insertions array in the source's push order
(SUCCESS%(D), SUCCESS%(C), LXFER%(D), LXFER%(C), APPT%(D), APPT%(C)),
each guarded by the resolved indices and the lensed-column flags. -/
def buildInsertions (cfg : LensedConfig)
    (contactsIdx apptIdx lxferIdx successIdx dialedIdx : Int) : List Insertion :=
  (if successIdx != -1 && dialedIdx != -1 && cfg.successCalls then
    [⟨successIdx.toNat, "SUCCESS%(D)", successIdx.toNat, dialedIdx.toNat⟩] else []) ++
  (if successIdx != -1 && contactsIdx != -1 && cfg.successContacts then
    [⟨successIdx.toNat, "SUCCESS%(C)", successIdx.toNat, contactsIdx.toNat⟩] else []) ++
  (if lxferIdx != -1 && dialedIdx != -1 && cfg.lxferCalls then
    [⟨lxferIdx.toNat, "LXFER%(D)", lxferIdx.toNat, dialedIdx.toNat⟩] else []) ++
  (if lxferIdx != -1 && contactsIdx != -1 && cfg.lxferContacts then
    [⟨lxferIdx.toNat, "LXFER%(C)", lxferIdx.toNat, contactsIdx.toNat⟩] else []) ++
  (if apptIdx != -1 && dialedIdx != -1 && cfg.apptCalls then
    [⟨apptIdx.toNat, "APPT%(D)", apptIdx.toNat, dialedIdx.toNat⟩] else []) ++
  (if apptIdx != -1 && contactsIdx != -1 && cfg.apptContacts then
    [⟨apptIdx.toNat, "APPT%(C)", apptIdx.toNat, contactsIdx.toNat⟩] else [])

/-- Stable insertion step for the descending sort. -/
def insertDesc (x : Insertion) : List Insertion → List Insertion
  | [] => [x]
  | y :: ys => if x.afterIdx > y.afterIdx then x :: y :: ys else y :: insertDesc x ys

/-- `insertions.sort((a, b) => b.afterIdx - a.afterIdx)`: stable,
descending by `afterIdx`. -/
def sortInsertions (l : List Insertion) : List Insertion :=
  l.foldl (fun acc x => insertDesc x acc) []

/-- Insert a new (untagged) cell with text `txt` right after the cell
tagged with original index `k`; when no cell carries that tag (the anchor
`cells[afterIdx]` is `undefined`), append at the end, as the source's
`row.appendChild` branch does. Inserting right after the anchor also
matches `insertBefore(newCell, anchor.nextSibling)` when several
insertions share one anchor. -/
def insertAfterAnchor (k : Nat) (txt : String) :
    List (Option Nat × String) → List (Option Nat × String)
  | [] => [(none, txt)]
  | c :: rest =>
    if c.1 == some k then c :: (none, txt) :: rest
    else c :: insertAfterAnchor k txt rest

/-- Tag every cell of a freshly captured cell array with its index
(the source's `headerCells`/`cells` arrays are captured once, before any
insertion, so anchors are identified by pre-insertion position). -/
def tagCells (l : List String) : List (Option Nat × String) :=
  l.enum.map (fun p => (some p.1, p.2))

/-- Run the sorted insertions left to right over a tagged cell list,
texting each new cell with `txtOf`. -/
def applyIns (txtOf : Insertion → String) (inss : List Insertion)
    (start : List (Option Nat × String)) : List (Option Nat × String) :=
  inss.foldl (fun acc ins => insertAfterAnchor ins.afterIdx (txtOf ins) acc) start

/-- Header-row mutation of `processTable` (lines 295-309). -/
def injectHeaders (inss : List Insertion) (headers : List String) : List String :=
  (applyIns (fun ins => ins.headerText) inss (tagCells headers)).map (fun p => p.2)

/-- Body-row mutation of `processTable` (lines 317-332): each inserted
`td` holds `formatPct(ins.calculate(cells))` where `cells` is the row's
original cell array. -/
def injectRow (inss : List Insertion) (cells : List String) : List String :=
  (applyIns (fun ins => formatPct (calcValue ins cells)) inss (tagCells cells)).map (fun p => p.2)

/-- The idempotence guard of `processTable` (line 155): only the three
`%(C)` marker texts are checked. -/
def alreadyInjected (headers : List String) : Bool :=
  headers.any (fun h =>
    jsIncludes h "APPT%(C)" || jsIncludes h "LXFER%(C)" || jsIncludes h "SUCCESS%(C)")

/-- content.js `processTable` (lines 146-337): guard, role resolution,
insufficient-basis skip, insertion build + descending stable sort, header
and body mutation. Rows with zero cells are skipped
(`if (cells.length === 0) return`). -/
def processTable (cfg : LensedConfig) (t : Table) : Table :=
  let headers := t.headers.map jsTrim
  if alreadyInjected headers then t
  else
    let contactsIdx := findColumnIndex headers colContacts
    let apptIdx := findColumnIndex headers colAppt
    let lxferIdx := findColumnIndex headers colLxfer
    let successIdx := findColumnIndex headers colSuccess
    let dialedIdx := findColumnIndex headers colDialed
    if contactsIdx == -1 && dialedIdx == -1 then t
    else
      let inss := sortInsertions (buildInsertions cfg contactsIdx apptIdx lxferIdx successIdx dialedIdx)
      if inss.isEmpty then t
      else
        { headers := injectHeaders inss t.headers
          rows := t.rows.map (fun row => if row.length == 0 then row else injectRow inss row) }

-- =========================================================================
-- Aggregation Extractor (`extractAllTableData`, content.js lines 1331-1397)
-- =========================================================================

/-- The raw counter tuple accumulated per agent and per list. -/
structure Tup where
  dialed : ℚ
  contacts : ℚ
  appt : ℚ
  lxfer : ℚ
  success : ℚ
deriving Repr, DecidableEq

/-- `{ dialed: 0, contacts: 0, appt: 0, lxfer: 0, success: 0 }`. -/
def zeroTup : Tup := ⟨0, 0, 0, 0, 0⟩

/-- Elementwise addition of counter tuples. -/
def addTup (a b : Tup) : Tup :=
  ⟨a.dialed + b.dialed, a.contacts + b.contacts, a.appt + b.appt,
   a.lxfer + b.lxfer, a.success + b.success⟩

/-- One agent's entry: per-list tuples (a JS `Map`, modelled as an
insertion-ordered association list with unique keys) plus the
independently accumulated totals tuple. -/
structure AgentData where
  lists : List (String × Tup)
  totals : Tup
deriving Repr, DecidableEq

/-- Result of `extractAllTableData`: the `agents` map and the `lists`
set (insertion-ordered, duplicate-free). -/
structure Extraction where
  agents : List (String × AgentData)
  lists : List String
deriving Repr, DecidableEq

/-- JS `Map.prototype.has` on the association-list model. -/
def aHas {α : Type} (k : String) (l : List (String × α)) : Bool :=
  l.any (fun p => p.1 == k)

/-- JS `Map.prototype.set` on an existing key: update in place (keys are
unique, so updating the first occurrence is exact). -/
def aUpdate {α : Type} (k : String) (f : α → α) : List (String × α) → List (String × α)
  | [] => []
  | p :: rest => if p.1 == k then (p.1, f p.2) :: rest else p :: aUpdate k f rest

/-- JS `Set.prototype.add`: append if absent. -/
def setAdd (x : String) (l : List String) : List String :=
  if l.contains x then l else l ++ [x]

/-- JS `value || dflt` for an optionally-absent string: `undefined` and
`""` are falsy. -/
def jsOrStr (o : Option String) (dflt : String) : String :=
  match o with
  | none => dflt
  | some s => if s = "" then dflt else s

/-- The role indices one table resolves (lines 1343-1349), over headers
already trimmed and lowercased. -/
structure RoleIdx where
  userIdx : Int
  listIdx : Int
  dialedIdx : Int
  contactsIdx : Int
  apptIdx : Int
  lxferIdx : Int
  successIdx : Int
deriving Repr, DecidableEq

/-- `headers.findIndex(h => h === 'user' || h === 'agent')`: exact
whole-string equality, unlike every substring-matched role. -/
def findIdxEqUserAgent : List String → Nat → Int
  | [], _ => -1
  | h :: rest, i =>
    if h == "user" || h == "agent" then (i : Int)
    else findIdxEqUserAgent rest (i + 1)

/-- `headers.findIndex(h => h.includes('list'))`. -/
def findIdxHasList : List String → Nat → Int
  | [], _ => -1
  | h :: rest, i =>
    if jsIncludes h "list" then (i : Int) else findIdxHasList rest (i + 1)

/-- Resolve all role indices for one table's (trimmed, lowercased)
headers, with the extractor's own candidate lists. -/
def roleIdxOf (headers : List String) : RoleIdx where
  userIdx := findIdxEqUserAgent headers 0
  listIdx := findIdxHasList headers 0
  dialedIdx := findColumnIndex headers ["dialed"]
  contactsIdx := findColumnIndex headers ["contacts", "contact"]
  apptIdx := findColumnIndex headers ["appt", "appointment"]
  lxferIdx := findColumnIndex headers ["lxfer", "live transfer"]
  successIdx := findColumnIndex headers ["success", "all success", "total success"]

/-- `idx !== -1 ? parseNum(cells[idx]?.innerText) : 0`. -/
def counterAt (idx : Int) (cells : List String) : ℚ :=
  if idx != -1 then parseNumCell (cells.get? idx.toNat) else 0

/-- The five raw counters of one row. -/
def rowTup (r : RoleIdx) (cells : List String) : Tup :=
  ⟨counterAt r.dialedIdx cells, counterAt r.contactsIdx cells,
   counterAt r.apptIdx cells, counterAt r.lxferIdx cells,
   counterAt r.successIdx cells⟩

/-- Fold of one body row (lines 1353-1393): rows shorter than 3 cells are
skipped; agent name falls back to "Unknown", list name to "Default" when
the list column exists but the cell is blank, and to the literal "All"
when no list column resolved; the row's counters are added elementwise to
the per-list tuple and, independently, to the totals tuple. -/
def processExtractRow (r : RoleIdx) (st : Extraction) (cells : List String) : Extraction :=
  if cells.length < 3 then st
  else
    let agentName := jsOrStr ((cells.get? r.userIdx.toNat).map jsTrim) "Unknown"
    let listName :=
      if r.listIdx != -1 then jsOrStr ((cells.get? r.listIdx.toNat).map jsTrim) "Default"
      else "All"
    let lists' := setAdd listName st.lists
    let agents₁ :=
      if aHas agentName st.agents then st.agents
      else st.agents ++ [(agentName, ⟨[], zeroTup⟩)]
    let tup := rowTup r cells
    let agents₂ := aUpdate agentName (fun ad =>
      let ls := if aHas listName ad.lists then ad.lists else ad.lists ++ [(listName, zeroTup)]
      { lists := aUpdate listName (fun lt => addTup lt tup) ls
        totals := addTup ad.totals tup }) agents₁
    ⟨agents₂, lists'⟩

/-- Fold of one table (lines 1335-1394): headers are trimmed and
lowercased, roles resolved, and the table is skipped entirely when the
agent/user role is absent. -/
def extractTable (st : Extraction) (t : Table) : Extraction :=
  let headers := t.headers.map (fun h => jsToLower (jsTrim h))
  let r := roleIdxOf headers
  if r.userIdx == -1 then st
  else t.rows.foldl (processExtractRow r) st

/-- content.js `extractAllTableData`. -/
def extractAllTableData (tables : List Table) : Extraction :=
  tables.foldl extractTable ⟨[], []⟩

-- =========================================================================
-- Metric Computer, Pivot Renderer, CSV Serializer
-- =========================================================================

/-- The Metric Computer formula, exactly the guarded expression inlined at
every call site: `den > 0 ? (num / den) * 100 : 0`. -/
def pct (num den : ℚ) : ℚ := if den > 0 then num / den * 100 else 0

/-- The twelve metric cells one data tuple produces in the pivot view or
in one CSV row: raw counters plus the seven derived percentages, each
percentage carried as the numeric value of its fixed-decimals rendering. -/
structure MetricCells where
  dialed : ℚ
  contacts : ℚ
  contactPct : ℚ
  appt : ℚ
  apptPctC : ℚ
  apptPctD : ℚ
  lxfer : ℚ
  lxferPctC : ℚ
  lxferPctD : ℚ
  success : ℚ
  successPctC : ℚ
  successPctD : ℚ
deriving Repr, DecidableEq

/-- content.js `renderMetricCells` (lines 1294-1326): the seven ratios with
their divide-by-zero guards, each rendered `toFixed(1)` (one decimal) in
the pivot cells; `(data.success || 0)` is always `data.success` here
since the tuple model always carries the field. -/
def renderMetricCells (data : Tup) : MetricCells :=
  let contactPct := if data.dialed > 0 then data.contacts / data.dialed * 100 else 0
  let apptPctC := if data.contacts > 0 then data.appt / data.contacts * 100 else 0
  let lxferPctC := if data.contacts > 0 then data.lxfer / data.contacts * 100 else 0
  let successPctC := if data.contacts > 0 then data.success / data.contacts * 100 else 0
  let apptPctD := if data.dialed > 0 then data.appt / data.dialed * 100 else 0
  let lxferPctD := if data.dialed > 0 then data.lxfer / data.dialed * 100 else 0
  let successPctD := if data.dialed > 0 then data.success / data.dialed * 100 else 0
  { dialed := data.dialed
    contacts := data.contacts
    contactPct := toFixedVal 1 contactPct
    appt := data.appt
    apptPctC := toFixedVal 1 apptPctC
    apptPctD := toFixedVal 1 apptPctD
    lxfer := data.lxfer
    lxferPctC := toFixedVal 1 lxferPctC
    lxferPctD := toFixedVal 1 lxferPctD
    success := data.success
    successPctC := toFixedVal 1 successPctC
    successPctD := toFixedVal 1 successPctD }

/-- One CSV data row's metric cells (`exportCSV`, lines 1425-1435): the
same guarded ratios, rendered `toFixed(2)` (two decimals). -/
def csvRowCells (listData : Tup) : MetricCells :=
  let contactPct := if listData.dialed > 0 then listData.contacts / listData.dialed * 100 else 0
  let apptPctC := if listData.contacts > 0 then listData.appt / listData.contacts * 100 else 0
  let lxferPctC := if listData.contacts > 0 then listData.lxfer / listData.contacts * 100 else 0
  let successPctC := if listData.contacts > 0 then listData.success / listData.contacts * 100 else 0
  let apptPctD := if listData.dialed > 0 then listData.appt / listData.dialed * 100 else 0
  let lxferPctD := if listData.dialed > 0 then listData.lxfer / listData.dialed * 100 else 0
  let successPctD := if listData.dialed > 0 then listData.success / listData.dialed * 100 else 0
  { dialed := listData.dialed
    contacts := listData.contacts
    contactPct := toFixedVal 2 contactPct
    appt := listData.appt
    apptPctC := toFixedVal 2 apptPctC
    apptPctD := toFixedVal 2 apptPctD
    lxfer := listData.lxfer
    lxferPctC := toFixedVal 2 lxferPctC
    lxferPctD := toFixedVal 2 lxferPctD
    success := listData.success
    successPctC := toFixedVal 2 successPctC
    successPctD := toFixedVal 2 successPctD }

/-- One emitted CSV data row. -/
structure CsvRowOut where
  agent : String
  listName : String
  cells : MetricCells
deriving Repr, DecidableEq

/-- The CSV artifact: fixed header line, the data rows, and the download
file name. -/
structure CsvFile where
  headerLine : String
  rows : List CsvRowOut
  filename : String
deriving Repr, DecidableEq

/-- content.js `exportCSV` (lines 1411-1448): one row per (agent, list)
pair of the extraction, skipping lists whose lowercased name is exactly
"all"; `dateStr` stands for `new Date().toISOString().slice(0, 10)`. The
source also computes a filtered sorted `lists` array that the row loop
never reads; it is not modelled. -/
def exportCSV (dateStr : String) (tables : List Table) : CsvFile :=
  let data := extractAllTableData tables
  { headerLine := "Agent,List,Dialed,Contacts,Contact%,APPT,APPT%(C),APPT%(D),LXFER,LXFER%(C),LXFER%(D),Success,SUCCESS%(C),SUCCESS%(D)"
    rows := (data.agents.map (fun p =>
      p.2.lists.filterMap (fun q =>
        if jsToLower q.1 == "all" then none
        else some ⟨p.1, q.1, csvRowCells q.2⟩))).flatten
    filename := "convoso-insight-" ++ dateStr ++ ".csv" }

/-- All (agent, list) pairs present in an extraction, in iteration
order. -/
def aggPairs (e : Extraction) : List (String × String) :=
  (e.agents.map (fun p => p.2.lists.map (fun q => (p.1, q.1)))).flatten

/-- Elementwise sum of an agent's per-list tuples. -/
def sumTup (l : List (String × Tup)) : Tup :=
  l.foldr (fun p acc => addTup p.2 acc) zeroTup

/-- Position of the first matching header, if any (proof-side
characterization of the outer loop of `findColumnIndex`). -/
def firstMatch (terms : List String) : List String → Option Nat
  | [] => none
  | h :: rest =>
    if headerMatches terms h then some 0
    else (firstMatch terms rest).map (· + 1)

/-- A report table where only the `dialed` denominator resolves: the
first injection pass adds only the three `%(D)` columns. -/
def tblDialedOnly : Table :=
  ⟨["Dialed", "APPT", "LXFER", "Success"], [["10", "2", "1", "3"]]⟩

/-- A table whose single body row has fewer cells (one) than the
resolved role indices expect (two). -/
def tblShortRow : Table := ⟨["Dialed", "APPT"], [["10"]]⟩

/-- A table with one empty body row and one short body row. -/
def tblMixedRows : Table := ⟨["Dialed", "APPT"], [[], ["10"]]⟩

/-- A table resolving the agent/user role but no list/campaign column. -/
def tblNoListCol : Table := ⟨["User", "Dialed", "Contacts"], [["Alice", "5", "2"]]⟩

/-- A table with one agent spread over two lists. -/
def tblTwoLists : Table :=
  ⟨["User", "List", "Dialed"], [["Bob", "A", "10"], ["Bob", "B", "20"]]⟩


-- =========================================================================
-- Helper lemmas
-- =========================================================================

theorem addTup_comm (a b : Tup) : addTup a b = addTup b a := by
  simp only [addTup, Tup.mk.injEq]
  refine ⟨?_, ?_, ?_, ?_, ?_⟩ <;> ring

theorem addTup_assoc (a b c : Tup) :
    addTup (addTup a b) c = addTup a (addTup b c) := by
  simp only [addTup, Tup.mk.injEq]
  refine ⟨?_, ?_, ?_, ?_, ?_⟩ <;> ring

theorem addTup_left_comm (a b c : Tup) :
    addTup a (addTup b c) = addTup b (addTup a c) := by
  rw [← addTup_assoc, addTup_comm a b, addTup_assoc]

theorem addTup_zero (a : Tup) : addTup zeroTup a = a := by
  simp only [addTup, zeroTup, zero_add]

theorem sumTup_append_zero (l : List (String × Tup)) (k : String) :
    sumTup (l ++ [(k, zeroTup)]) = sumTup l := by
  induction l with
  | nil => simp [sumTup, addTup_zero]
  | cons p rest ih =>
    simp only [List.cons_append, sumTup, List.foldr_cons] at *
    rw [ih]

theorem sumTup_aUpdate_add (k : String) (t : Tup) :
    ∀ l : List (String × Tup), aHas k l = true →
      sumTup (aUpdate k (fun x => addTup x t) l) = addTup (sumTup l) t := by
  intro l
  induction l with
  | nil => intro h; simp [aHas] at h
  | cons p rest ih =>
    intro hhas
    cases hbk : (p.1 == k) with
    | true =>
      simp only [aUpdate, hbk, if_true, sumTup, List.foldr_cons]
      rw [addTup_comm p.2 t, addTup_assoc]
      exact addTup_comm t _
    | false =>
      have hrest : aHas k rest = true := by
        simp only [aHas, List.any_cons, hbk, Bool.false_or] at hhas
        exact hhas
      rw [aUpdate, if_neg (by simp [hbk])]
      simp only [sumTup, List.foldr_cons]
      have := ih hrest
      simp only [sumTup] at this
      rw [this, addTup_assoc]

theorem aUpdate_pres {α : Type} (P : α → Prop) (k : String) (f : α → α)
    (hf : ∀ v, P v → P (f v)) :
    ∀ l : List (String × α), (∀ p ∈ l, P p.2) → ∀ p ∈ aUpdate k f l, P p.2 := by
  intro l
  induction l with
  | nil => intro _ p hp; simp [aUpdate] at hp
  | cons q rest ih =>
    intro hall p hp
    cases hbk : (q.1 == k) with
    | true =>
      rw [aUpdate, if_pos hbk] at hp
      rcases List.mem_cons.mp hp with heq | hmem
      · rw [heq]; exact hf _ (hall q (List.mem_cons_self q rest))
      · exact hall p (List.mem_cons_of_mem q hmem)
    | false =>
      rw [aUpdate, if_neg (by simp [hbk])] at hp
      rcases List.mem_cons.mp hp with heq | hmem
      · rw [heq]; exact hall q (List.mem_cons_self q rest)
      · exact ih (fun r hr => hall r (List.mem_cons_of_mem q hr)) p hmem

theorem aUpdate_keys_pred {α : Type} (Pk : String → Prop) (k : String) (f : α → α) :
    ∀ l : List (String × α), (∀ p ∈ l, Pk p.1) → ∀ p ∈ aUpdate k f l, Pk p.1 := by
  intro l
  induction l with
  | nil => intro _ p hp; simp [aUpdate] at hp
  | cons q rest ih =>
    intro hall p hp
    cases hbk : (q.1 == k) with
    | true =>
      rw [aUpdate, if_pos hbk] at hp
      rcases List.mem_cons.mp hp with heq | hmem
      · rw [heq]; exact hall q (List.mem_cons_self q rest)
      · exact hall p (List.mem_cons_of_mem q hmem)
    | false =>
      rw [aUpdate, if_neg (by simp [hbk])] at hp
      rcases List.mem_cons.mp hp with heq | hmem
      · rw [heq]; exact hall q (List.mem_cons_self q rest)
      · exact ih (fun r hr => hall r (List.mem_cons_of_mem q hr)) p hmem

theorem foldl_pres {σ β : Type} (P : σ → Prop) (f : σ → β → σ)
    (hf : ∀ st b, P st → P (f st b)) :
    ∀ (l : List β) (st : σ), P st → P (List.foldl f st l) := by
  intro l
  induction l with
  | nil => intro st h; exact h
  | cons b rest ih => intro st h; exact ih _ (hf st b h)

theorem setAdd_mem (x n : String) (l : List String) :
    n ∈ setAdd x l → n ∈ l ∨ n = x := by
  intro h
  cases hc : l.contains x with
  | true => rw [setAdd, if_pos hc] at h; exact Or.inl h
  | false =>
    rw [setAdd, if_neg (by rw [hc]; simp)] at h
    rcases List.mem_append.mp h with hl | hr
    · exact Or.inl hl
    · exact Or.inr (List.mem_singleton.mp hr)

theorem findColumnIndexAux_eq_firstMatch (terms : List String) :
    ∀ (l : List String) (i : Nat),
      findColumnIndexAux terms l i
        = match firstMatch terms l with
          | none => -1
          | some j => ((i + j : Nat) : Int) := by
  intro l
  induction l with
  | nil => intro i; rfl
  | cons h rest ih =>
    intro i
    cases hm : headerMatches terms h with
    | true =>
      rw [findColumnIndexAux, if_pos hm, firstMatch, if_pos hm]
      simp
    | false =>
      rw [findColumnIndexAux, if_neg (by rw [hm]; simp), firstMatch,
        if_neg (by rw [hm]; simp), ih (i + 1)]
      cases firstMatch terms rest with
      | none => rfl
      | some j =>
        show ((i + 1 + j : Nat) : Int) = ((i + (j + 1) : Nat) : Int)
        omega

theorem firstMatch_none_iff (terms : List String) :
    ∀ l : List String,
      firstMatch terms l = none ↔ ∀ h ∈ l, headerMatches terms h = false := by
  intro l
  induction l with
  | nil => simp [firstMatch]
  | cons h rest ih =>
    cases hm : headerMatches terms h with
    | true =>
      simp only [firstMatch, if_pos hm]
      constructor
      · intro hc; exact absurd hc (by simp)
      · intro hall; exact absurd (hall h (List.mem_cons_self h rest)) (by simp [hm])
    | false =>
      rw [firstMatch, if_neg (by rw [hm]; simp)]
      constructor
      · intro hc h₂ hmem
        rcases List.mem_cons.mp hmem with heq | hmem₂
        · rw [heq]; exact hm
        · exact (ih.mp (by
            cases hfm : firstMatch terms rest with
            | none => rfl
            | some j => rw [hfm] at hc; simp at hc)) h₂ hmem₂
      · intro hall
        rw [ih.mpr (fun h₂ hm₂ => hall h₂ (List.mem_cons_of_mem h hm₂))]
        rfl

theorem firstMatch_some_spec (terms : List String) :
    ∀ (l : List String) (j : Nat), firstMatch terms l = some j →
      ∃ h, l.get? j = some h ∧ headerMatches terms h = true
        ∧ ∀ k, k < j → ∀ h₂, l.get? k = some h₂ → headerMatches terms h₂ = false := by
  intro l
  induction l with
  | nil => intro j hj; simp [firstMatch] at hj
  | cons h rest ih =>
    intro j hj
    cases hm : headerMatches terms h with
    | true =>
      rw [firstMatch, if_pos hm] at hj
      have hj0 : j = 0 := by cases hj; rfl
      subst hj0
      exact ⟨h, rfl, hm, fun k hk => absurd hk (by omega)⟩
    | false =>
      rw [firstMatch, if_neg (by rw [hm]; simp)] at hj
      cases hfm : firstMatch terms rest with
      | none => rw [hfm] at hj; simp at hj
      | some j₂ =>
        rw [hfm] at hj
        have hjj : j = j₂ + 1 := by cases hj; rfl
        subst hjj
        obtain ⟨h₂, hget, hmat, hbefore⟩ := ih j₂ hfm
        refine ⟨h₂, hget, hmat, ?_⟩
        intro k hk h₃ hgk
        cases k with
        | zero =>
          rw [(Option.some.inj hgk).symm]
          exact hm
        | succ k₂ =>
          exact hbefore k₂ (by omega) h₃ hgk

theorem toFixedVal_zero (k : Nat) : toFixedVal k 0 = 0 := by
  have h1 : (0 : ℚ) * (10 : ℚ) ^ k + 1 / 2 = 1 / 2 := by ring
  have h2 : ⌊(1 / 2 : ℚ)⌋ = 0 := by norm_num
  rw [toFixedVal, h1, h2]
  norm_num

theorem toFixedVal_two_shape (q : ℚ) : ∃ n : ℤ, toFixedVal 2 q = (n : ℚ) / 100 := by
  refine ⟨⌊q * (10 : ℚ) ^ 2 + 1 / 2⌋, ?_⟩
  rw [toFixedVal]
  norm_num

theorem insertAfterAnchor_length (k : Nat) (txt : String) :
    ∀ l : List (Option Nat × String), (insertAfterAnchor k txt l).length = l.length + 1 := by
  intro l
  induction l with
  | nil => rfl
  | cons c rest ih =>
    cases hc : (c.1 == some k) with
    | true => rw [insertAfterAnchor, if_pos hc]; rfl
    | false =>
      rw [insertAfterAnchor, if_neg (by rw [hc]; simp)]
      simp only [List.length_cons, ih]

theorem applyIns_length (txtOf : Insertion → String) :
    ∀ (inss : List Insertion) (start : List (Option Nat × String)),
      (applyIns txtOf inss start).length = start.length + inss.length := by
  intro inss
  induction inss with
  | nil => intro start; rfl
  | cons ins rest ih =>
    intro start
    show (applyIns txtOf rest (insertAfterAnchor ins.afterIdx (txtOf ins) start)).length
        = start.length + (ins :: rest).length
    rw [ih, insertAfterAnchor_length]
    simp only [List.length_cons]
    omega

theorem injectHeaders_length (inss : List Insertion) (hs : List String) :
    (injectHeaders inss hs).length = hs.length + inss.length := by
  rw [injectHeaders, List.length_map, applyIns_length, tagCells, List.length_map,
    List.enum_length]

theorem injectRow_length (inss : List Insertion) (cells : List String) :
    (injectRow inss cells).length = cells.length + inss.length := by
  rw [injectRow, List.length_map, applyIns_length, tagCells, List.length_map,
    List.enum_length]

-- =========================================================================
-- Claim theorems
-- =========================================================================

/-- C3: divide-by-zero guard. Every derived percentage computed by the
Metric Computer formula — in the injected columns (`calcValue`), in the
pivot renderer (`renderMetricCells`) and in the CSV serializer
(`csvRowCells`) — is exactly 0 whenever its denominator is 0. In the
rational embedding the division is reached only under the `den > 0`
guard, so no NaN/Infinity value can arise anywhere. -/
theorem c3_zero_denominator_guard :
    ∀ (d : Tup) (ins : Insertion) (cells : List String),
      (∀ n : ℚ, pct n 0 = 0)
    ∧ (parseNumCell (cells.get? ins.denIdx) = 0 → calcValue ins cells = 0)
    ∧ (d.contacts = 0 →
        (renderMetricCells d).apptPctC = 0 ∧ (renderMetricCells d).lxferPctC = 0
      ∧ (renderMetricCells d).successPctC = 0
      ∧ (csvRowCells d).apptPctC = 0 ∧ (csvRowCells d).lxferPctC = 0
      ∧ (csvRowCells d).successPctC = 0)
    ∧ (d.dialed = 0 →
        (renderMetricCells d).contactPct = 0 ∧ (renderMetricCells d).apptPctD = 0
      ∧ (renderMetricCells d).lxferPctD = 0 ∧ (renderMetricCells d).successPctD = 0
      ∧ (csvRowCells d).contactPct = 0 ∧ (csvRowCells d).apptPctD = 0
      ∧ (csvRowCells d).lxferPctD = 0 ∧ (csvRowCells d).successPctD = 0) := by
  intro d ins cells
  refine ⟨fun n => by simp [pct], fun hden => ?_, fun hc => ?_, fun hd => ?_⟩
  · rw [calcValue]
    simp only [hden]
    norm_num
  · simp only [renderMetricCells, csvRowCells, hc]
    norm_num [toFixedVal_zero]
  · simp only [renderMetricCells, csvRowCells, hd]
    norm_num [toFixedVal_zero]

unseal Rat.mul Rat.inv Rat.add Rat.sub in
/-- Witness for C3 at a concrete tuple, insertion and row. -/
theorem c3_zero_denominator_guard_witness :
    calcValue ⟨0, "X", 1, 0⟩ ["0", "7"] = 0
  ∧ (renderMetricCells ⟨0, 0, 3, 4, 5⟩).apptPctC = 0
  ∧ (csvRowCells ⟨0, 0, 3, 4, 5⟩).successPctD = 0 := by
  obtain ⟨-, h2, h3, h4⟩ :=
    c3_zero_denominator_guard ⟨0, 0, 3, 4, 5⟩ ⟨0, "X", 1, 0⟩ ["0", "7"]
  exact ⟨h2 (by decide), (h3 rfl).1, (h4 rfl).2.2.2.2.2.2.2⟩

/-- C4, counterexample to the claimed candidate-major priority: with
headers `["bb", "aa"]` and ranked candidates `["aa", "bb"]`, the claim
(each candidate tested across all headers before falling through to the
next candidate — formalised verbatim by `findColumnIndexClaimed`) demands
index 1, the first header containing the highest-ranked candidate "aa";
the source's `findColumnIndex` returns 0 because it scans header-major
and header 0 contains the lower-ranked candidate "bb". -/
theorem c4_candidate_priority_counterexample :
    findColumnIndex ["bb", "aa"] ["aa", "bb"] = 0
  ∧ findColumnIndexClaimed ["bb", "aa"] ["aa", "bb"] = 1 := by
  constructor <;> decide

/-- C4 as amended: `findColumnIndex` returns the index of the first
header (in document order) whose lowercase, trimmed text contains ANY
candidate substring — header position is the only priority; the ranking
of candidates is immaterial — and returns -1 exactly when no header
contains any candidate. -/
theorem c4_header_major_first_match :
    ∀ headers searchTerms : List String,
      (findColumnIndex headers searchTerms = -1
        ↔ ∀ h ∈ headers, headerMatches searchTerms h = false)
    ∧ (∀ i : Nat, findColumnIndex headers searchTerms = (i : Int) →
        ∃ h, headers.get? i = some h ∧ headerMatches searchTerms h = true
          ∧ ∀ j, j < i → ∀ h₂, headers.get? j = some h₂ →
              headerMatches searchTerms h₂ = false) := by
  intro headers terms
  have heq := findColumnIndexAux_eq_firstMatch terms headers 0
  constructor
  · rw [findColumnIndex, heq]
    cases hfm : firstMatch terms headers with
    | none =>
      exact ⟨fun _ => (firstMatch_none_iff terms headers).mp hfm, fun _ => rfl⟩
    | some j =>
      constructor
      · intro hj
        exact absurd (show ((0 + j : Nat) : Int) = -1 from hj) (by omega)
      · intro hall
        exact absurd ((firstMatch_none_iff terms headers).mpr hall) (by simp [hfm])
  · intro i hi
    rw [findColumnIndex, heq] at hi
    cases hfm : firstMatch terms headers with
    | none =>
      rw [hfm] at hi
      exact absurd (show (-1 : Int) = (i : Int) from hi) (by omega)
    | some j =>
      rw [hfm] at hi
      have hi2 : ((0 + j : Nat) : Int) = (i : Int) := hi
      have hji : j = i := by omega
      subst hji
      exact firstMatch_some_spec terms headers j hfm

/-- Witness for C4's amended theorem: with headers `["x", "dialed"]` and
candidates `["dialed"]`, the returned index 1 carries a matching header
and every earlier header fails to match. -/
theorem c4_header_major_first_match_witness :
    ∃ h, (["x", "dialed"] : List String).get? 1 = some h
      ∧ headerMatches ["dialed"] h = true
      ∧ ∀ j, j < 1 → ∀ h₂, (["x", "dialed"] : List String).get? j = some h₂ →
          headerMatches ["dialed"] h₂ = false :=
  (c4_header_major_first_match ["x", "dialed"] ["dialed"]).2 1 (by decide)

unseal Rat.mul Rat.inv Rat.add Rat.sub in
/-- C1 is a code bug: on `tblDialedOnly` (only the `dialed` denominator
resolves, so the first pass injects exactly the three `%(D)` columns) a
second invocation of `processTable` is NOT a no-op — the idempotence
guard at content.js line 155 checks only the `APPT%(C)`, `LXFER%(C)`
and `SUCCESS%(C)` marker texts, none of which are present — and each
`%(D)` derived column ends up duplicated, contradicting the
spec's idempotence property and the guard's own
"already processed" intent. -/
theorem c1_second_pass_duplicates_columns :
    (processTable defaultLensed tblDialedOnly).headers
      = ["Dialed", "APPT", "APPT%(D)", "LXFER", "LXFER%(D)", "Success", "SUCCESS%(D)"]
  ∧ (processTable defaultLensed (processTable defaultLensed tblDialedOnly)).headers
      = ["Dialed", "APPT", "APPT%(D)", "APPT%(D)", "LXFER", "LXFER%(D)", "LXFER%(D)",
         "Success", "SUCCESS%(D)", "SUCCESS%(D)"]
  ∧ ((processTable defaultLensed (processTable defaultLensed tblDialedOnly)).headers.count
        "APPT%(D)" = 2) := by
  refine ⟨by decide, by decide, by decide⟩

unseal Rat.mul Rat.inv Rat.add Rat.sub in
/-- C6, counterexample: for the counter tuple (dialed 3, contacts 1) the
contact rate is 100/3 %; the pivot view renders it `toFixed(1)` (value
33.3) while the CSV emits `toFixed(2)` (value 33.33). The two consumers
do not agree to the claimed two-decimal precision: they differ by 3/100,
more than one unit in the second decimal place. -/
theorem c6_one_decimal_vs_two_decimal_counterexample :
    (renderMetricCells ⟨3, 1, 0, 0, 0⟩).contactPct
        ≠ (csvRowCells ⟨3, 1, 0, 0, 0⟩).contactPct
  ∧ (renderMetricCells ⟨3, 1, 0, 0, 0⟩).contactPct = 333 / 10
  ∧ (csvRowCells ⟨3, 1, 0, 0, 0⟩).contactPct = 3333 / 100
  ∧ |(renderMetricCells ⟨3, 1, 0, 0, 0⟩).contactPct
        - (csvRowCells ⟨3, 1, 0, 0, 0⟩).contactPct| > 1 / 100 := by
  refine ⟨by decide, by decide, by decide, ?_⟩
  have h1 : (renderMetricCells ⟨3, 1, 0, 0, 0⟩).contactPct = 333 / 10 := by decide
  have h2 : (csvRowCells ⟨3, 1, 0, 0, 0⟩).contactPct = 3333 / 100 := by decide
  rw [h1, h2, abs_sub_comm, abs_of_pos (by norm_num)]
  norm_num

/-- C6 as amended: for the same counter tuple, the pivot renderer and
the CSV serializer compute identical underlying ratios, each exactly by
the Metric Computer formula `pct`; the CSV then formats them at two
decimals while the pivot renders them at ONE decimal, so the two agree
exactly before formatting but only to one decimal after it. -/
theorem c6_same_formulas_different_precision :
    ∀ d : Tup,
      (renderMetricCells d).contactPct = toFixedVal 1 (pct d.contacts d.dialed)
    ∧ (csvRowCells d).contactPct = toFixedVal 2 (pct d.contacts d.dialed)
    ∧ (renderMetricCells d).apptPctC = toFixedVal 1 (pct d.appt d.contacts)
    ∧ (csvRowCells d).apptPctC = toFixedVal 2 (pct d.appt d.contacts)
    ∧ (renderMetricCells d).apptPctD = toFixedVal 1 (pct d.appt d.dialed)
    ∧ (csvRowCells d).apptPctD = toFixedVal 2 (pct d.appt d.dialed)
    ∧ (renderMetricCells d).lxferPctC = toFixedVal 1 (pct d.lxfer d.contacts)
    ∧ (csvRowCells d).lxferPctC = toFixedVal 2 (pct d.lxfer d.contacts)
    ∧ (renderMetricCells d).lxferPctD = toFixedVal 1 (pct d.lxfer d.dialed)
    ∧ (csvRowCells d).lxferPctD = toFixedVal 2 (pct d.lxfer d.dialed)
    ∧ (renderMetricCells d).successPctC = toFixedVal 1 (pct d.success d.contacts)
    ∧ (csvRowCells d).successPctC = toFixedVal 2 (pct d.success d.contacts)
    ∧ (renderMetricCells d).successPctD = toFixedVal 1 (pct d.success d.dialed)
    ∧ (csvRowCells d).successPctD = toFixedVal 2 (pct d.success d.dialed) := by
  intro d
  refine ⟨rfl, rfl, rfl, rfl, rfl, rfl, rfl, rfl, rfl, rfl, rfl, rfl, rfl, rfl⟩

unseal Rat.mul Rat.inv Rat.add Rat.sub in
/-- C7, counterexample: in `tblShortRow` the single body row has one
cell, fewer than the resolved role indices expect (dialed at 0, appt at
1), yet the row is NOT skipped: `processTable` only skips rows with zero
cells, so a derived `APPT%(D)` cell is inserted into the short row, its
value computed with the missing APPT counter parsed as 0 and the cell
appended at the row's end because the anchor cell is absent. -/
theorem c7_short_row_still_gets_cells_counterexample :
    (processTable defaultLensed tblShortRow).rows = [["10", "0.00%"]]
  ∧ (processTable defaultLensed tblShortRow).rows ≠ tblShortRow.rows := by
  refine ⟨by decide, by decide⟩

/-- C7 as amended: only body rows with ZERO cells are skipped (left
untouched); every non-empty row — including rows with fewer cells than
the resolved indices expect — receives exactly one derived cell per
insertion, the same number by which the header row grew; and the pass is
total, never aborting: every row of the table is processed independently
and the row count is preserved. -/
theorem c7_zero_cell_rows_skipped_rest_injected :
    ∀ (cfg : LensedConfig) (t : Table),
      (processTable cfg t).rows.length = t.rows.length
    ∧ (∀ i row, t.rows.get? i = some row → row.length = 0 →
        (processTable cfg t).rows.get? i = some row)
    ∧ (∀ i row, t.rows.get? i = some row → row.length ≠ 0 →
        ∃ row₂, (processTable cfg t).rows.get? i = some row₂
          ∧ row₂.length
              = row.length + ((processTable cfg t).headers.length - t.headers.length)) := by
  intro cfg t
  rw [processTable]
  simp only
  split
  · exact ⟨rfl, fun i row hi _ => hi, fun i row hi _ => ⟨row, hi, by omega⟩⟩
  · split
    · exact ⟨rfl, fun i row hi _ => hi, fun i row hi _ => ⟨row, hi, by omega⟩⟩
    · split
      · exact ⟨rfl, fun i row hi _ => hi, fun i row hi _ => ⟨row, hi, by omega⟩⟩
      · refine ⟨by simp, ?_, ?_⟩
        · intro i row hi hz
          rw [List.get?_map, hi]
          have hc : (row.length == 0) = true := by
            simp only [beq_iff_eq]; exact hz
          exact congrArg some (if_pos hc)
        · intro i row hi hz
          rw [List.get?_map, hi]
          have hcond : ¬((row.length == 0) = true) := by
            simp only [beq_iff_eq]; exact hz
          refine ⟨_, congrArg some (if_neg hcond), ?_⟩
          rw [injectRow_length, injectHeaders_length]
          omega

unseal Rat.mul Rat.inv Rat.add Rat.sub in
/-- Witness for C7's amended theorem on `tblMixedRows`: the empty row is
returned untouched, and the short row receives exactly as many new cells
as the header row gained. -/
theorem c7_zero_cell_rows_skipped_rest_injected_witness :
    (processTable defaultLensed tblMixedRows).rows.get? 0 = some []
  ∧ ∃ row₂, (processTable defaultLensed tblMixedRows).rows.get? 1 = some row₂
      ∧ row₂.length
          = 1 + ((processTable defaultLensed tblMixedRows).headers.length
              - tblMixedRows.headers.length) := by
  obtain ⟨-, h2, h3⟩ := c7_zero_cell_rows_skipped_rest_injected defaultLensed tblMixedRows
  exact ⟨h2 0 [] (by decide) rfl, h3 1 ["10"] (by decide) (by decide)⟩

/-- C9: Numeric Parser totality and lenient-zero policy. `parseNum` is a
total Lean function (it can never throw); it returns 0 on `undefined`,
`null`, numbers, booleans (all non-string inputs), on the empty string,
and on any string whose cleaned form has no parsable numeric prefix; and
on a parsable display string it returns exactly the decimal number that
`parseFloat` reads from the string after stripping `%`, `$` and commas
and trimming whitespace. -/
theorem c9_parseNum_total_lenient_zero :
    ∀ (q : ℚ) (b : Bool) (s : String),
      parseNum .jsUndefined = 0 ∧ parseNum .nullv = 0
    ∧ parseNum (.num q) = 0 ∧ parseNum (.boolv b) = 0
    ∧ parseNum (.str "") = 0
    ∧ (jsParseFloat (jsTrim (stripPctDollarComma s)) = none → parseNum (.str s) = 0)
    ∧ (∀ r : ℚ, s ≠ "" → jsParseFloat (jsTrim (stripPctDollarComma s)) = some r →
        parseNum (.str s) = r) := by
  intro q b s
  refine ⟨rfl, rfl, rfl, rfl, rfl, fun hnone => ?_, fun r hne hsome => ?_⟩
  · rw [parseNum]
    by_cases he : s = ""
    · rw [if_pos he]
    · rw [if_neg he, hnone]
  · rw [parseNum, if_neg hne, hsome]

unseal Rat.mul Rat.inv Rat.add Rat.sub in
/-- Witness for C9 on the display strings "31.73%" and "x": the former
parses to 31.73 after stripping, the latter is unparsable and maps to
0. -/
theorem c9_parseNum_total_lenient_zero_witness :
    parseNum (.str "31.73%") = 3173 / 100 ∧ parseNum (.str "x") = 0 := by
  obtain ⟨-, -, -, -, -, hnone, -⟩ := c9_parseNum_total_lenient_zero 0 true "x"
  obtain ⟨-, -, -, -, -, -, hsome⟩ := c9_parseNum_total_lenient_zero 0 true "31.73%"
  exact ⟨hsome (3173 / 100) (by decide) (by decide), hnone (by decide)⟩

theorem aHas_append_self {α : Type} (k : String) (v : α) (l : List (String × α)) :
    aHas k (l ++ [(k, v)]) = true := by
  simp [aHas, List.any_append]

theorem sumTup_bump (k : String) (t : Tup) (l : List (String × Tup)) :
    sumTup (aUpdate k (fun x => addTup x t)
        (if aHas k l = true then l else l ++ [(k, zeroTup)]))
      = addTup (sumTup l) t := by
  split
  · rename_i hh
    exact sumTup_aUpdate_add k t l hh
  · rw [sumTup_aUpdate_add _ _ _ (aHas_append_self _ _ _), sumTup_append_zero]

theorem totInv_processExtractRow (r : RoleIdx) (cells : List String) (st : Extraction)
    (h : ∀ p ∈ st.agents, p.2.totals = sumTup p.2.lists) :
    ∀ p ∈ (processExtractRow r st cells).agents, p.2.totals = sumTup p.2.lists := by
  simp only [processExtractRow]
  split
  · exact h
  · refine aUpdate_pres (fun (ad : AgentData) => ad.totals = sumTup ad.lists) _ _ ?_ _ ?_
    · intro ad had
      dsimp only
      rw [sumTup_bump, had]
    · intro p hp
      split at hp
      · exact h p hp
      · rcases List.mem_append.mp hp with hmem | hnew
        · exact h p hmem
        · rw [List.mem_singleton.mp hnew]
          rfl

theorem totInv_extractTable (st : Extraction) (t : Table)
    (h : ∀ p ∈ st.agents, p.2.totals = sumTup p.2.lists) :
    ∀ p ∈ (extractTable st t).agents, p.2.totals = sumTup p.2.lists := by
  simp only [extractTable]
  split
  · exact h
  · exact foldl_pres (fun e => ∀ p ∈ e.agents, p.2.totals = sumTup p.2.lists)
      (processExtractRow _) (fun e row he => totInv_processExtractRow _ row e he) t.rows st h

/-- C2: aggregation totals invariant. In every extraction produced by
`extractAllTableData`, every agent's totals tuple equals the elementwise
sum of that agent's per-list tuples — even though the totals are
accumulated independently of the per-list tuples during the same
pass. -/
theorem c2_totals_eq_sum_of_lists :
    ∀ tables : List Table, ∀ p ∈ (extractAllTableData tables).agents,
      p.2.totals = sumTup p.2.lists := by
  intro tables
  exact foldl_pres (fun e => ∀ p ∈ e.agents, p.2.totals = sumTup p.2.lists)
    extractTable (fun e t he => totInv_extractTable e t he) tables ⟨[], []⟩
    (by intro p hp; simp at hp)

unseal Rat.mul Rat.inv Rat.add Rat.sub in
/-- Witness for C2 on `tblTwoLists`: agent "Bob" appears with lists "A"
(dialed 10) and "B" (dialed 20); the accumulated totals tuple (dialed
30) equals the elementwise sum of the two per-list tuples. -/
theorem c2_totals_eq_sum_of_lists_witness :
    ("Bob", ({ lists := [("A", ⟨10, 0, 0, 0, 0⟩), ("B", ⟨20, 0, 0, 0, 0⟩)]
               totals := ⟨30, 0, 0, 0, 0⟩ } : AgentData))
        ∈ (extractAllTableData [tblTwoLists]).agents
  ∧ (⟨30, 0, 0, 0, 0⟩ : Tup)
      = sumTup [("A", ⟨10, 0, 0, 0, 0⟩), ("B", ⟨20, 0, 0, 0, 0⟩)] := by
  constructor
  · decide
  · exact c2_totals_eq_sum_of_lists [tblTwoLists]
      ("Bob", { lists := [("A", ⟨10, 0, 0, 0, 0⟩), ("B", ⟨20, 0, 0, 0, 0⟩)]
                totals := ⟨30, 0, 0, 0, 0⟩ }) (by decide)

theorem allInv_processExtractRow (r : RoleIdx) (hl : (r.listIdx != -1) = false)
    (cells : List String) (st : Extraction)
    (h : (∀ p ∈ st.agents, ∀ q ∈ p.2.lists, q.1 = "All") ∧ ∀ n ∈ st.lists, n = "All") :
    (∀ p ∈ (processExtractRow r st cells).agents, ∀ q ∈ p.2.lists, q.1 = "All")
  ∧ ∀ n ∈ (processExtractRow r st cells).lists, n = "All" := by
  simp only [processExtractRow, hl, Bool.false_eq_true, if_false]
  split
  · exact h
  · constructor
    · refine aUpdate_pres (fun (ad : AgentData) => ∀ q ∈ ad.lists, q.1 = "All") _ _ ?_ _ ?_
      · intro ad had
        dsimp only
        refine aUpdate_keys_pred (fun s => s = "All") _ _ _ ?_
        split
        · exact had
        · intro q hq
          rcases List.mem_append.mp hq with hmem | hnew
          · exact had q hmem
          · rw [List.mem_singleton.mp hnew]
      · intro p hp
        split at hp
        · exact h.1 p hp
        · rcases List.mem_append.mp hp with hmem | hnew
          · exact h.1 p hmem
          · rw [List.mem_singleton.mp hnew]
            intro q hq
            simp at hq
    · intro n hn
      rcases setAdd_mem _ _ _ hn with hmem | heq
      · exact h.2 n hmem
      · exact heq

theorem findIdxEqUserAgent_neg :
    ∀ (l : List String) (i : Nat),
      (∀ h ∈ l, h ≠ "user" ∧ h ≠ "agent") → findIdxEqUserAgent l i = -1 := by
  intro l
  induction l with
  | nil => intro i _; rfl
  | cons h rest ih =>
    intro i hall
    have hh := hall h (List.mem_cons_self h rest)
    rw [findIdxEqUserAgent, if_neg (by simp [hh.1, hh.2])]
    exact ih (i + 1) (fun h₂ hm => hall h₂ (List.mem_cons_of_mem h hm))

/-- C5 as amended: for every table, if no header resolves the agent/user
role the extractor skips the table entirely (the running extraction is
returned untouched); if the agent/user role resolves but no header
resolves the list/campaign role, every row of that table is recorded
under the fixed literal partition name "All" — not "Default", which the
source uses only when the list column exists but a row's list cell is
blank. -/
theorem c5_no_list_column_means_All_partition :
    ∀ (st : Extraction) (t : Table),
      ((roleIdxOf (t.headers.map (fun h => jsToLower (jsTrim h)))).userIdx = -1 →
          extractTable st t = st)
    ∧ ((roleIdxOf (t.headers.map (fun h => jsToLower (jsTrim h)))).listIdx = -1 →
          (∀ p ∈ (extractAllTableData [t]).agents, ∀ q ∈ p.2.lists, q.1 = "All")
        ∧ ∀ n ∈ (extractAllTableData [t]).lists, n = "All") := by
  intro st t
  constructor
  · intro hu
    simp only [extractTable]
    rw [if_pos (by simp [hu])]
  · intro hli
    have hstep :
        (∀ p ∈ (extractTable ⟨[], []⟩ t).agents, ∀ q ∈ p.2.lists, q.1 = "All")
      ∧ ∀ n ∈ (extractTable ⟨[], []⟩ t).lists, n = "All" := by
      simp only [extractTable]
      split
      · exact ⟨fun p hp => by simp at hp, fun n hn => by simp at hn⟩
      · refine foldl_pres
          (fun e => (∀ p ∈ e.agents, ∀ q ∈ p.2.lists, q.1 = "All")
            ∧ ∀ n ∈ e.lists, n = "All")
          (processExtractRow (roleIdxOf (t.headers.map (fun h => jsToLower (jsTrim h)))))
          (fun e row he => allInv_processExtractRow
            (roleIdxOf (t.headers.map (fun h => jsToLower (jsTrim h))))
            (by simp [hli]) row e he)
          t.rows ⟨[], []⟩
          ⟨fun p hp => by simp at hp, fun n hn => by simp at hn⟩
    exact hstep

/-- Witness for C5's amended theorem: a table with no agent/user header
is skipped outright, and `tblNoListCol` (agent column but no list
column) records its rows only under "All". -/
theorem c5_no_list_column_means_All_partition_witness :
    extractTable ⟨[], []⟩ ⟨["Name", "Dialed"], [["x", "1"]]⟩ = ⟨[], []⟩
  ∧ ∀ p ∈ (extractAllTableData [tblNoListCol]).agents, ∀ q ∈ p.2.lists, q.1 = "All" :=
  ⟨(c5_no_list_column_means_All_partition ⟨[], []⟩ ⟨["Name", "Dialed"], [["x", "1"]]⟩).1
      (by decide),
   ((c5_no_list_column_means_All_partition ⟨[], []⟩ tblNoListCol).2 (by decide)).1⟩

unseal Rat.mul Rat.inv Rat.add Rat.sub in
/-- C5, counterexample to the claimed "Default" partition name: in
`tblNoListCol` the agent/user role resolves but no header contains
"list", and the single row is recorded under the literal partition name
"All" — no "Default" entry exists anywhere in the extraction. -/
theorem c5_default_partition_counterexample :
    (extractAllTableData [tblNoListCol]).agents.map (fun p => (p.1, p.2.lists.map Prod.fst))
        = [("Alice", ["All"])]
  ∧ ∀ p ∈ (extractAllTableData [tblNoListCol]).agents, aHas "Default" p.2.lists = false := by
  exact ⟨by decide, by decide⟩

/-- C10 (implicit): in aggregation extraction the agent/user role
resolves only by exact whole-string equality of the lowercased, trimmed
header with "user" or "agent" — so any table whose headers merely
contain but never equal those words contributes nothing: the extractor
returns its input state unchanged. -/
theorem c10_agent_role_exact_equality_only :
    ∀ (st : Extraction) (t : Table),
      (∀ h ∈ t.headers, jsToLower (jsTrim h) ≠ "user" ∧ jsToLower (jsTrim h) ≠ "agent") →
      extractTable st t = st := by
  intro st t hall
  have hneg : findIdxEqUserAgent (t.headers.map (fun h => jsToLower (jsTrim h))) 0 = -1 := by
    refine findIdxEqUserAgent_neg _ 0 ?_
    intro h hm
    obtain ⟨h₀, hh₀, rfl⟩ := List.mem_map.mp hm
    exact hall h₀ hh₀
  simp only [extractTable]
  rw [if_pos (by simp only [roleIdxOf] at *; simp [hneg])]

/-- Witness for C10: the header "Agent Name" contains "agent" but does
not equal it, so the whole table is skipped by the extractor. -/
theorem c10_agent_role_exact_equality_only_witness :
    extractTable ⟨[], []⟩ ⟨["Agent Name", "List", "Dialed"], [["Alice", "X", "5"]]⟩
      = ⟨[], []⟩ :=
  c10_agent_role_exact_equality_only ⟨[], []⟩
    ⟨["Agent Name", "List", "Dialed"], [["Alice", "X", "5"]]⟩ (by decide)

theorem csvAgentRows_pairs (an : String) :
    ∀ ls : List (String × Tup),
      (ls.filterMap (fun q =>
          if jsToLower q.1 == "all" then none
          else some (⟨an, q.1, csvRowCells q.2⟩ : CsvRowOut))).map
            (fun r => (r.agent, r.listName))
        = (ls.map (fun q => (an, q.1))).filter (fun p => !(jsToLower p.2 == "all")) := by
  intro ls
  induction ls with
  | nil => rfl
  | cons q rest ih =>
    cases hq : (jsToLower q.1 == "all") with
    | true =>
      have hfq : (fun (p : String × Tup) =>
          if (jsToLower p.1 == "all") = true then none
          else some ({ agent := an, listName := p.1, cells := csvRowCells p.2 } : CsvRowOut)) q
            = none := if_pos hq
      rw [@List.filterMap_cons_none (String × Tup) CsvRowOut (fun (p : String × Tup) =>
          if (jsToLower p.1 == "all") = true then none
          else some ({ agent := an, listName := p.1, cells := csvRowCells p.2 } : CsvRowOut))
        q rest hfq]
      rw [List.map_cons, List.filter_cons, if_neg (by simp [hq])]
      exact ih
    | false =>
      have hfq : (fun (p : String × Tup) =>
          if (jsToLower p.1 == "all") = true then none
          else some ({ agent := an, listName := p.1, cells := csvRowCells p.2 } : CsvRowOut)) q
            = some { agent := an, listName := q.1, cells := csvRowCells q.2 } :=
        if_neg (by rw [hq]; simp)
      rw [@List.filterMap_cons_some (String × Tup) CsvRowOut (fun (p : String × Tup) =>
          if (jsToLower p.1 == "all") = true then none
          else some ({ agent := an, listName := p.1, cells := csvRowCells p.2 } : CsvRowOut))
        q rest _ hfq]
      rw [List.map_cons, List.map_cons, List.filter_cons, if_pos (by simp [hq]), ih]

theorem rowsPairs_flatten :
    ∀ L : List (String × AgentData),
      ((L.map (fun p => p.2.lists.filterMap (fun q =>
          if jsToLower q.1 == "all" then none
          else some (⟨p.1, q.1, csvRowCells q.2⟩ : CsvRowOut)))).flatten).map
            (fun r => (r.agent, r.listName))
        = ((L.map (fun p => p.2.lists.map (fun q => (p.1, q.1)))).flatten).filter
            (fun p => !(jsToLower p.2 == "all")) := by
  intro L
  induction L with
  | nil => rfl
  | cons p rest ih =>
    simp only [List.map_cons, List.flatten_cons, List.map_append, List.filter_append, ih,
      csvAgentRows_pairs]

theorem mem_exportCSV_rows (dateStr : String) (tables : List Table) (r : CsvRowOut) :
    r ∈ (exportCSV dateStr tables).rows →
      (jsToLower r.listName == "all") = false ∧ ∃ d : Tup, r.cells = csvRowCells d := by
  intro hr
  simp only [exportCSV] at hr
  obtain ⟨l, hl, hrl⟩ := List.mem_flatten.mp hr
  obtain ⟨p, _, hpl⟩ := List.mem_map.mp hl
  rw [← hpl] at hrl
  obtain ⟨q, _, hfq⟩ := List.mem_filterMap.mp hrl
  cases hq : (jsToLower q.1 == "all") with
  | true => rw [if_pos hq] at hfq; cases hfq
  | false =>
    rw [if_neg (by rw [hq]; simp)] at hfq
    have hre : r = ⟨p.1, q.1, csvRowCells q.2⟩ := (Option.some.inj hfq).symm
    rw [hre]
    exact ⟨hq, q.2, rfl⟩

/-- C8: shape of the CSV artifact. The export begins with exactly the
fixed header line; its data rows are exactly the (agent, list) pairs of
the extraction, in iteration order, with every list whose lowercased
name equals "all" excluded; every percentage cell is a two-decimal value
(an integer number of hundredths, as rendered by `toFixed(2)` with a
trailing percent sign); and the artifact is named
`convoso-insight-<ISO-date>.csv`. -/
theorem c8_csv_artifact_shape :
    ∀ (dateStr : String) (tables : List Table),
      (exportCSV dateStr tables).headerLine
        = "Agent,List,Dialed,Contacts,Contact%,APPT,APPT%(C),APPT%(D),LXFER,LXFER%(C),LXFER%(D),Success,SUCCESS%(C),SUCCESS%(D)"
    ∧ (exportCSV dateStr tables).rows.map (fun r => (r.agent, r.listName))
        = (aggPairs (extractAllTableData tables)).filter
            (fun p => !(jsToLower p.2 == "all"))
    ∧ (∀ r ∈ (exportCSV dateStr tables).rows,
        (jsToLower r.listName == "all") = false
        ∧ (∃ n : ℤ, r.cells.contactPct = (n : ℚ) / 100)
        ∧ (∃ n : ℤ, r.cells.apptPctC = (n : ℚ) / 100)
        ∧ (∃ n : ℤ, r.cells.apptPctD = (n : ℚ) / 100)
        ∧ (∃ n : ℤ, r.cells.lxferPctC = (n : ℚ) / 100)
        ∧ (∃ n : ℤ, r.cells.lxferPctD = (n : ℚ) / 100)
        ∧ (∃ n : ℤ, r.cells.successPctC = (n : ℚ) / 100)
        ∧ (∃ n : ℤ, r.cells.successPctD = (n : ℚ) / 100))
    ∧ (exportCSV dateStr tables).filename = "convoso-insight-" ++ dateStr ++ ".csv" := by
  intro dateStr tables
  refine ⟨rfl, ?_, ?_, rfl⟩
  · exact rowsPairs_flatten (extractAllTableData tables).agents
  · intro r hr
    obtain ⟨hall, d, hd⟩ := mem_exportCSV_rows dateStr tables r hr
    rw [hd]
    exact ⟨hall, toFixedVal_two_shape _, toFixedVal_two_shape _, toFixedVal_two_shape _,
      toFixedVal_two_shape _, toFixedVal_two_shape _, toFixedVal_two_shape _,
      toFixedVal_two_shape _⟩

unseal Rat.mul Rat.inv Rat.add Rat.sub in
/-- Witness for C8 on `tblTwoLists`: the (Bob, A) row is emitted, its
list is not the excluded "all" bucket, and its contact-rate cell is an
integer number of hundredths. -/
theorem c8_csv_artifact_shape_witness :
    (jsToLower (⟨"Bob", "A", csvRowCells ⟨10, 0, 0, 0, 0⟩⟩ : CsvRowOut).listName
        == "all") = false
  ∧ ∃ n : ℤ,
      (⟨"Bob", "A", csvRowCells ⟨10, 0, 0, 0, 0⟩⟩ : CsvRowOut).cells.contactPct
        = (n : ℚ) / 100 := by
  obtain ⟨-, -, h3, -⟩ := c8_csv_artifact_shape "2026-01-02" [tblTwoLists]
  obtain ⟨h1, h2, -⟩ := h3 ⟨"Bob", "A", csvRowCells ⟨10, 0, 0, 0, 0⟩⟩ (by decide)
  exact ⟨h1, h2⟩
